import Mathlib

/-!
Verification of the Mini LIMS application (`app.py`).

The program is a single-file CRUD application over an embedded SQLite
database.  We embed its data model and the bodies of its mutating form
handlers shallowly:

* tables become lists of row structures, `AUTOINCREMENT` ids become
  `length + 1` (the program never deletes rows);
* dates (`received_at`, `due_at`) are modelled as day ordinals (`Int`),
  so SQLite's `DATE(x) <= DATE('now','+7 day')` becomes `d ≤ today + 7`;
* timestamps (`now_ts()`) are opaque strings passed in explicitly;
* the acting user (`st.session_state.user`) is passed in explicitly;
* `REAL` columns are modelled as `Rat` (values are stored and read back
  verbatim; no arithmetic is performed on them);
* Python's decimal formatting `str(n)` / `f"{n:04d}"` is modelled by
  `natStr` / `pad4` below, and `int(s)` by `strToNat`.
-/

/-- The character of a decimal digit, as Python renders digits. -/
def digitChr (d : Nat) : Char := Char.ofNat (48 + d)

/-- Decimal digit characters of `n`, most significant first, computed with
explicit fuel (`fuel ≥ n` suffices); empty for `n = 0`. -/
def digitsFuel : Nat → Nat → List Char
  | 0, _ => []
  | fuel + 1, n => if n = 0 then [] else digitsFuel fuel (n / 10) ++ [digitChr (n % 10)]

/-- The characters of Python's `str(n)` for a natural number. -/
def decChars (n : Nat) : List Char := if n = 0 then ['0'] else digitsFuel n n

/-- Python's `str(n)` for a natural number. -/
def natStr (n : Nat) : String := String.mk (decChars n)

/-- The characters of Python's `f"{n:04d}"`: zero-pad to at least width 4. -/
def pad4Chars (n : Nat) : List Char :=
  List.replicate (4 - (decChars n).length) '0' ++ decChars n

/-- Python's `f"{n:04d}"`. -/
def pad4 (n : Nat) : String := String.mk (pad4Chars n)

/-- Accumulate one decimal digit character. -/
def digStep (acc : Nat) (c : Char) : Nat := acc * 10 + (c.toNat - 48)

/-- Numeric value of a list of decimal digit characters. -/
def parseDigits (l : List Char) : Nat := l.foldl digStep 0

/-- Python's `int(s)`: defined when `s` is a nonempty string of decimal
digits (the only shape the program feeds it); `none` models the exception. -/
def strToNat (s : String) : Option Nat :=
  if s.data ≠ [] ∧ s.data.all (fun c => c.isDigit) then some (parseDigits s.data) else none

theorem digitChr_toNat {d : Nat} (h : d < 10) : (digitChr d).toNat = 48 + d := by
  interval_cases d <;> rfl

theorem digitChr_isDigit {d : Nat} (h : d < 10) : (digitChr d).isDigit = true := by
  interval_cases d <;> rfl

theorem digStep_digitChr (acc : Nat) {d : Nat} (h : d < 10) :
    digStep acc (digitChr d) = acc * 10 + d := by
  simp [digStep, digitChr_toNat h]

theorem foldl_digStep_digitsFuel :
    ∀ fuel n, n ≤ fuel → ∀ acc : Nat,
      List.foldl digStep acc (digitsFuel fuel n) =
        acc * 10 ^ (digitsFuel fuel n).length + n := by
  intro fuel
  induction fuel with
  | zero =>
    intro n hn acc
    interval_cases n
    simp [digitsFuel]
  | succ fuel ih =>
    intro n hn acc
    by_cases h0 : n = 0
    · simp [digitsFuel, h0]
    · have hdiv : n / 10 < n := Nat.div_lt_self (Nat.pos_of_ne_zero h0) (by omega)
      have hle : n / 10 ≤ fuel := by omega
      rw [digitsFuel, if_neg h0, List.foldl_append, List.length_append,
        ih (n / 10) hle acc]
      have hmod : n % 10 < 10 := Nat.mod_lt _ (by omega)
      rw [List.foldl_cons, List.foldl_nil, digStep_digitChr _ hmod]
      have hdm : n / 10 * 10 + n % 10 = n := by omega
      have : (acc * 10 ^ (digitsFuel fuel (n / 10)).length + n / 10) * 10 + n % 10 =
          acc * (10 ^ (digitsFuel fuel (n / 10)).length * 10) + (n / 10 * 10 + n % 10) := by
        ring
      rw [this, hdm]
      simp [List.length_append, pow_succ]

theorem parseDigits_decChars (n : Nat) : parseDigits (decChars n) = n := by
  by_cases h0 : n = 0
  · simp [h0, parseDigits, decChars, digStep]
  · rw [parseDigits, decChars, if_neg h0, foldl_digStep_digitsFuel n n (le_refl n) 0]
    simp

theorem foldl_digStep_replicate_zero (k : Nat) :
    List.foldl digStep 0 (List.replicate k '0') = 0 := by
  induction k with
  | zero => rfl
  | succ k ih => simpa [List.replicate_succ, digStep] using ih

theorem parseDigits_pad4Chars (n : Nat) : parseDigits (pad4Chars n) = n := by
  rw [pad4Chars, parseDigits, List.foldl_append, foldl_digStep_replicate_zero]
  exact parseDigits_decChars n

theorem pad4Chars_injective {a b : Nat} (h : pad4Chars a = pad4Chars b) : a = b := by
  have := congrArg parseDigits h
  rwa [parseDigits_pad4Chars, parseDigits_pad4Chars] at this

theorem digitsFuel_all_digits :
    ∀ fuel n, (digitsFuel fuel n).all (fun c => c.isDigit) = true := by
  intro fuel
  induction fuel with
  | zero => intro n; rfl
  | succ fuel ih =>
    intro n
    by_cases h0 : n = 0
    · simp [digitsFuel, h0]
    · rw [digitsFuel, if_neg h0]
      simp only [List.all_append, ih (n / 10), Bool.true_and, List.all_cons, List.all_nil]
      simp [digitChr_isDigit (Nat.mod_lt n (by omega))]

theorem decChars_all_digits (n : Nat) : (decChars n).all (fun c => c.isDigit) = true := by
  by_cases h0 : n = 0
  · simp [decChars, h0]
  · rw [decChars, if_neg h0]; exact digitsFuel_all_digits n n

theorem decChars_ne_nil (n : Nat) : decChars n ≠ [] := by
  by_cases h0 : n = 0
  · simp [decChars, h0]
  · rw [decChars, if_neg h0]
    rcases Nat.exists_eq_succ_of_ne_zero h0 with ⟨m, rfl⟩
    rw [digitsFuel, if_neg h0]
    simp

theorem strToNat_natStr (n : Nat) : strToNat (natStr n) = some n := by
  rw [strToNat, natStr]
  rw [if_pos ⟨decChars_ne_nil n, decChars_all_digits n⟩]
  rw [parseDigits_decChars]

/-- `SELECT value FROM meta WHERE key = k` over the key/value `meta` table. -/
def metaSelect (meta : List (String × String)) (k : String) : List String :=
  (meta.filter (fun p => p.1 = k)).map (fun p => p.2)

/-- `UPDATE meta SET value = v WHERE key = k`. -/
def metaUpdate (meta : List (String × String)) (k v : String) : List (String × String) :=
  meta.map (fun p => if p.1 = k then (p.1, v) else p)

/-- `INSERT INTO meta(key, value) VALUES(k, v)`. -/
def metaInsert (meta : List (String × String)) (k v : String) : List (String × String) :=
  meta ++ [(k, v)]

theorem metaSelect_cons (p : String × String) (rest : List (String × String)) (k : String) :
    metaSelect (p :: rest) k = (if p.1 = k then [p.2] else []) ++ metaSelect rest k := by
  by_cases h : p.1 = k <;> simp [metaSelect, h]

theorem metaSelect_update_self (meta : List (String × String)) (k v : String) :
    metaSelect (metaUpdate meta k v) k = (metaSelect meta k).map (fun _ => v) := by
  induction meta with
  | nil => rfl
  | cons p rest ih =>
    by_cases hp : p.1 = k
    · have ht : metaUpdate (p :: rest) k v = (p.1, v) :: metaUpdate rest k v := by
        simp [metaUpdate, hp]
      rw [ht, metaSelect_cons, metaSelect_cons, if_pos hp,
        if_pos (show ((p.1, v)).1 = k from hp)]
      simp [ih]
    · have ht : metaUpdate (p :: rest) k v = p :: metaUpdate rest k v := by
        simp [metaUpdate, hp]
      rw [ht, metaSelect_cons, metaSelect_cons, if_neg hp]
      simp [ih]

theorem metaSelect_update_other (meta : List (String × String)) {k k' : String}
    (v : String) (h : k' ≠ k) :
    metaSelect (metaUpdate meta k v) k' = metaSelect meta k' := by
  induction meta with
  | nil => rfl
  | cons p rest ih =>
    by_cases hp : p.1 = k
    · have ht : metaUpdate (p :: rest) k v = (p.1, v) :: metaUpdate rest k v := by
        simp [metaUpdate, hp]
      have h1 : ¬(((p.1, v)).1 = k') := by
        show ¬(p.1 = k'); rw [hp]; exact Ne.symm h
      have h2 : ¬(p.1 = k') := by rw [hp]; exact Ne.symm h
      rw [ht, metaSelect_cons, metaSelect_cons, if_neg h1, if_neg h2, ih]
    · have ht : metaUpdate (p :: rest) k v = p :: metaUpdate rest k v := by
        simp [metaUpdate, hp]
      rw [ht, metaSelect_cons, metaSelect_cons, ih]

theorem metaSelect_insert_self (meta : List (String × String)) (k v : String) :
    metaSelect (metaInsert meta k v) k = metaSelect meta k ++ [v] := by
  simp [metaSelect, metaInsert, List.filter_append]

theorem metaSelect_insert_other (meta : List (String × String)) {k k' : String}
    (v : String) (h : k' ≠ k) :
    metaSelect (metaInsert meta k v) k' = metaSelect meta k' := by
  simp [metaSelect, metaInsert, List.filter_append, Ne.symm h]

/-- `next_sample_id()` from `app.py`, the current year passed explicitly
(Python reads it from the clock).  Returns the generated id together with
the updated meta table; `none` models the exception raised when the meta
table has no numeric `seq_num` row (the program never reaches that state). -/
def next_sample_id (year : Nat) (meta : List (String × String)) :
    Option (String × List (String × String)) :=
  let yearStr := natStr year
  let seq_year := metaSelect meta "seq_ano"
  match (metaSelect meta "seq_num").head? with
  | none => none
  | some s =>
    match strToNat s with
    | none => none
    | some n =>
      let (meta, seq_num) :=
        if seq_year.head? ≠ some yearStr then (metaUpdate meta "seq_ano" yearStr, 0)
        else (meta, n)
      let seq_num := seq_num + 1
      let meta := metaUpdate meta "seq_num" (natStr seq_num)
      some ("S-" ++ yearStr ++ "-" ++ pad4 seq_num, meta)

/-- A row of the `samples` table.  `id` is the sequencer-generated string key;
dates are day ordinals; `status`/`priority`/`matrix` hold the literal strings
the program stores (`"registrado"`, ..., `"cerrado"`, `"cancelado"`). -/
structure Sample where
  id : String
  client : String
  project : String
  matrix : String
  description : String
  received_at : Int
  due_at : Option Int
  status : String
  priority : String
  location : String
  created_by : String
  created_at : String
  updated_at : String
deriving DecidableEq

/-- A row of the `tests` table.  `assigned_to` is `none` at insertion (the
INSERT omits the column). -/
structure Test where
  id : Nat
  sample_id : String
  test_name : String
  method : String
  unit : String
  status : String
  assigned_to : Option String
  due_at : Option Int
deriving DecidableEq

/-- A row of the `results` table; `value` and `uncertainty` model the REAL
columns, stored verbatim. -/
structure ResultRow where
  id : Nat
  test_id : Nat
  analyte : String
  value : Rat
  unit : String
  uncertainty : Option Rat
  notes : String
  measured_at : String
deriving DecidableEq

/-- A row of the `attachments` table (the form's notes field is discarded by
the INSERT). -/
structure Attachment where
  id : Nat
  sample_id : String
  label : String
  url : String
  added_by : String
  added_at : String
deriving DecidableEq

/-- A row of the `coc` (chain of custody) table. -/
structure CocEvent where
  id : Nat
  sample_id : String
  event : String
  by_user : String
  at_time : String
  notes : String
deriving DecidableEq

/-- A row of the `audit` table; `details` keeps the key/value pairs passed to
`json.dumps`. -/
structure AuditRec where
  id : Nat
  entity : String
  entity_id : String
  action : String
  by_user : String
  at_time : String
  details : List (String × String)
deriving DecidableEq

/-- A row of the `qc_events` table. -/
structure QcEvent where
  id : Nat
  type : String
  instrument : String
  description : String
  status : String
  at_time : String
  by_user : String
deriving DecidableEq

/-- A row of the `users` table. -/
structure UserRow where
  id : Nat
  username : String
  role : String
  active : Nat
  created_at : String
deriving DecidableEq

/-- The whole database state of `lims.db`. -/
structure DB where
  meta : List (String × String)
  users : List UserRow
  samples : List Sample
  tests : List Test
  results : List ResultRow
  attachments : List Attachment
  coc : List CocEvent
  audit : List AuditRec
  qc_events : List QcEvent
deriving DecidableEq

/-- `audit(entity, entity_id, action, by_user, details)` from `app.py`:
append one audit row (AUTOINCREMENT id modelled as `length + 1`). -/
def auditIns (db : DB) (entity entity_id action by_user ts : String)
    (details : List (String × String)) : DB :=
  { db with audit :=
      db.audit ++ [⟨db.audit.length + 1, entity, entity_id, action, by_user, ts, details⟩] }

/-- `init_db()` from `app.py` (table creation is implicit in the model):
insert the `seq_ano` and `seq_num` meta rows and the `admin` user, each only
when absent. -/
def init_db (db : DB) (year : Nat) (ts : String) : DB :=
  let db :=
    if metaSelect db.meta "seq_ano" = [] then
      { db with meta := metaInsert db.meta "seq_ano" (natStr year) }
    else db
  let db :=
    if metaSelect db.meta "seq_num" = [] then
      { db with meta := metaInsert db.meta "seq_num" "0" }
    else db
  if db.users.filter (fun u => u.username = "admin") = [] then
    { db with users := db.users ++ [⟨db.users.length + 1, "admin", "admin", 1, ts⟩] }
  else db

/-- The `frm_sample` submit handler: required-field validation, id
generation, sample INSERT, audit, chain-of-custody INSERT.  Returns the new
state and the message passed to `st.error`, if any (`none` = success). -/
def frm_sample (db : DB) (year : Nat) (user ts : String)
    (client project matrix description : String) (received_at : Int)
    (due_at : Option Int) (status priority location created_by : String) :
    DB × Option String :=
  if client = "" then (db, some "Cliente es obligatorio.")
  else
    match next_sample_id year db.meta with
    | none => (db, some "exception: meta table has no numeric seq_num row")
    | some (sid, meta') =>
      let db := { db with meta := meta' }
      let db := { db with samples := db.samples ++
        [⟨sid, client, project, matrix, description, received_at, due_at,
          status, priority, location, created_by, ts, ts⟩] }
      let db := auditIns db "sample" sid "create" user ts
        [("client", client), ("priority", priority)]
      let db := { db with coc :=
        db.coc ++ [⟨db.coc.length + 1, sid, "Registro", user, ts, "Muestra creada"⟩] }
      (db, none)

/-- The `edit_sample` save handler: UPDATE the matching sample row, then
audit. -/
def edit_sample (db : DB) (sid user ts : String)
    (client project matrix description : String) (received_at : Int)
    (due_at : Option Int) (status priority location : String) : DB :=
  let db := { db with samples := db.samples.map (fun s =>
    if s.id = sid then
      { s with
        client := client,
        project := project,
        matrix := matrix,
        description := description,
        received_at := received_at,
        due_at := due_at,
        status := status,
        priority := priority,
        location := location,
        updated_at := ts }
    else s) }
  auditIns db "sample" sid "update" user ts [("status", status)]

/-- The `add_test` submit handler body (the page runs it only when a test
name was entered): INSERT the test with status `"pendiente"`, then audit with
the *sample* id as `entity_id`. -/
def add_test (db : DB) (sid2 user ts : String) (test_name method unit : String)
    (due_at : Option Int) : DB :=
  let db := { db with tests := db.tests ++
    [⟨db.tests.length + 1, sid2, test_name, method, unit, "pendiente", none, due_at⟩] }
  auditIns db "test" sid2 "create" user ts [("test", test_name)]

/-- The `edit_test` save handler: UPDATE status/assignee/due date of the
matching test, then audit. -/
def edit_test (db : DB) (tid : Nat) (user ts status assigned_to : String)
    (due_at : Option Int) : DB :=
  let db := { db with tests := db.tests.map (fun t =>
    if t.id = tid then
      { t with status := status, assigned_to := some assigned_to, due_at := due_at }
    else t) }
  auditIns db "test" (natStr tid) "update" user ts [("status", status)]

/-- The `add_result` submit handler body (the page runs it only when an
analyte and a test id were entered): INSERT the result, then audit with the
*test* id as `entity_id`. -/
def add_result (db : DB) (tid_r : Nat) (user ts : String) (analyte : String)
    (value : Rat) (unit : String) (unc : Option Rat) (notes : String) : DB :=
  let db := { db with results := db.results ++
    [⟨db.results.length + 1, tid_r, analyte, value, unit, unc, notes, ts⟩] }
  auditIns db "result" (natStr tid_r) "create" user ts [("analyte", analyte)]

/-- The `add_link` submit handler body (the page runs it only when a sample
id and a url were entered): INSERT the attachment, then audit. -/
def add_link (db : DB) (sid user ts label url : String) : DB :=
  let db := { db with attachments := db.attachments ++
    [⟨db.attachments.length + 1, sid, label, url, user, ts⟩] }
  auditIns db "attachment" sid "create" user ts [("url", url)]

/-- The `qc_form` submit handler: INSERT an open QC event, then audit with
the literal `"-"` as `entity_id`. -/
def qc_form (db : DB) (user ts qtype instr desc : String) : DB :=
  let db := { db with qc_events := db.qc_events ++
    [⟨db.qc_events.length + 1, qtype, instr, desc, "abierto", ts, user⟩] }
  auditIns db "qc" "-" "create" user ts [("type", qtype)]

/-- The `Cerrar evento QC` button handler: UPDATE the matching QC event to
`"cerrado"`, then audit. -/
def qc_close (db : DB) (qid : Nat) (user ts : String) : DB :=
  let db := { db with qc_events := db.qc_events.map (fun e =>
    if e.id = qid then { e with status := "cerrado" } else e) }
  auditIns db "qc" (natStr qid) "close" user ts []

/-- The `add_user` submit handler body (the page runs it only when a username
was entered): INSERT, or the IntegrityError message on a duplicate username;
audit only after a successful INSERT. -/
def add_user (db : DB) (user ts uname role : String) (active : Bool) :
    DB × Option String :=
  if db.users.any (fun u => u.username = uname) then
    (db, some "Nombre de usuario ya existe.")
  else
    let db := { db with users := db.users ++
      [⟨db.users.length + 1, uname, role, if active then 1 else 0, ts⟩] }
    (auditIns db "user" uname "create" user ts [("role", role)], none)

/-- The `add_coc` submit handler body (the page runs it only when an event
label was entered): INSERT the chain-of-custody event, then audit. -/
def add_coc (db : DB) (sid user ts event notes : String) : DB :=
  let db := { db with coc := db.coc ++
    [⟨db.coc.length + 1, sid, event, user, ts, notes⟩] }
  auditIns db "coc" sid "add_event" user ts [("event", event)]

/-- The dashboard due-soon query: samples whose due date is non-null and at
most `today + 7` and whose status is neither closed nor cancelled.  The SELECT
projection and ORDER BY are dropped: only membership matters here. -/
def dueSoonQuery (db : DB) (today : Int) : List Sample :=
  db.samples.filter (fun s =>
    match s.due_at with
    | none => false
    | some d => decide (d ≤ today + 7) && !(s.status = "cerrado" || s.status = "cancelado"))

/-- `SELECT * FROM results WHERE test_id = tid`. -/
def results_by_test (db : DB) (tid : Nat) : List ResultRow :=
  db.results.filter (fun r => r.test_id = tid)

/-- One invocation of a mutating handler, with its form inputs.  This is the
operation vocabulary of §6 of the spec: create/update on Sample and Test,
create on Result/Attachment/COC/QC/User, close on QC. -/
inductive Op where
  | registerSample (year : Nat) (client project matrix description : String)
      (received_at : Int) (due_at : Option Int)
      (status priority location created_by : String)
  | updateSample (sid client project matrix description : String)
      (received_at : Int) (due_at : Option Int) (status priority location : String)
  | addTest (sid2 test_name method unit : String) (due_at : Option Int)
  | updateTest (tid : Nat) (status assigned_to : String) (due_at : Option Int)
  | addResult (tid : Nat) (analyte : String) (value : Rat) (unit : String)
      (unc : Option Rat) (notes : String)
  | addAttachment (sid label url : String)
  | addCocEvent (sid event notes : String)
  | addQcEvent (qtype instr desc : String)
  | closeQcEvent (qid : Nat)
  | createUser (uname role : String) (active : Bool)

/-- Dispatch an operation to its handler; `.2` is the reported error, if
any (`none` = the mutation went through). -/
def applyOp (db : DB) (user ts : String) : Op → DB × Option String
  | .registerSample year client project matrix description r d status priority location created_by =>
      frm_sample db year user ts client project matrix description r d status priority location created_by
  | .updateSample sid client project matrix description r d status priority location =>
      (edit_sample db sid user ts client project matrix description r d status priority location, none)
  | .addTest sid2 test_name method unit d => (add_test db sid2 user ts test_name method unit d, none)
  | .updateTest tid status assigned d => (edit_test db tid user ts status assigned d, none)
  | .addResult tid analyte v u unc notes => (add_result db tid user ts analyte v u unc notes, none)
  | .addAttachment sid label url => (add_link db sid user ts label url, none)
  | .addCocEvent sid event notes => (add_coc db sid user ts event notes, none)
  | .addQcEvent qtype instr desc => (qc_form db user ts qtype instr desc, none)
  | .closeQcEvent qid => (qc_close db qid user ts, none)
  | .createUser uname role active => add_user db user ts uname role active

/-- The audit `action` each operation records. -/
def opAction : Op → String
  | .registerSample .. => "create"
  | .updateSample .. => "update"
  | .addTest .. => "create"
  | .updateTest .. => "update"
  | .addResult .. => "create"
  | .addAttachment .. => "create"
  | .addCocEvent .. => "add_event"
  | .addQcEvent .. => "create"
  | .closeQcEvent .. => "close"
  | .createUser .. => "create"

/-- The empty database (all tables empty), as `lims.db` starts. -/
def db0 : DB := ⟨[], [], [], [], [], [], [], [], []⟩

/-- The database right after `init_db()` ran in year 2025 (at timestamp
`"t0"`): the state of the concrete scenarios. -/
def dbInit : DB := init_db db0 2025 "t0"

theorem sample_id_string_injective (y : String) {a b : Nat}
    (h : "S-" ++ y ++ "-" ++ pad4 a = "S-" ++ y ++ "-" ++ pad4 b) : a = b := by
  have hd := congrArg String.data h
  rw [String.data_append, String.data_append, String.data_append,
    String.data_append, String.data_append, String.data_append] at hd
  exact pad4Chars_injective (List.append_cancel_left hd)

theorem digitsFuel_length_le :
    ∀ fuel n k, n ≤ fuel → n < 10 ^ k → (digitsFuel fuel n).length ≤ k := by
  intro fuel
  induction fuel with
  | zero =>
    intro n k hn _
    interval_cases n
    simp [digitsFuel]
  | succ fuel ih =>
    intro n k hn hk
    by_cases h0 : n = 0
    · simp [digitsFuel, h0]
    · match k with
      | 0 => rw [pow_zero] at hk; omega
      | k + 1 =>
        rw [digitsFuel, if_neg h0, List.length_append]
        have hdiv : n / 10 < 10 ^ k := by
          have hlt : n < 10 * 10 ^ k := by rw [← pow_succ']; exact hk
          exact Nat.div_lt_of_lt_mul hlt
        have hrec : (digitsFuel fuel (n / 10)).length ≤ k := ih (n / 10) k (by omega) hdiv
        simp only [List.length_cons, List.length_nil]
        omega

theorem decChars_length_le {n k : Nat} (h : n < 10 ^ k) (hk : 1 ≤ k) :
    (decChars n).length ≤ k := by
  by_cases h0 : n = 0
  · simp [decChars, h0]; omega
  · rw [decChars, if_neg h0]
    exact digitsFuel_length_le n n k (le_refl n) h

theorem pad4Chars_length {n : Nat} (h : n < 10000) : (pad4Chars n).length = 4 := by
  have h4 : (decChars n).length ≤ 4 := by
    have hlt : n < 10 ^ 4 := by omega
    exact decChars_length_le hlt (by omega)
  rw [pad4Chars, List.length_append, List.length_replicate]
  omega

theorem pad4_length {n : Nat} (h : n < 10000) : (pad4 n).length = 4 := by
  show (pad4Chars n).length = 4
  exact pad4Chars_length h

/-- C1: `next_sample_id()` returns `S-<year>-<seq>` with the sequence number
zero-padded to 4 digits (exactly 4 while the counter stays below 10000);
within a calendar year each call advances the persisted counter by exactly
one, so successive identifiers carry strictly increasing sequence numbers and
— since the rendered identifier determines the sequence number injectively —
are unique; the first call after the year changes resets the counter and
returns sequence number 1. -/
theorem next_sample_id_spec (year n : Nat) (y0 : String)
    (meta : List (String × String))
    (hn : metaSelect meta "seq_num" = [natStr n])
    (hy : metaSelect meta "seq_ano" = [y0]) :
    ∃ meta',
      next_sample_id year meta =
        some ("S-" ++ natStr year ++ "-" ++
          pad4 (if y0 = natStr year then n + 1 else 1), meta') ∧
      metaSelect meta' "seq_num" =
        [natStr (if y0 = natStr year then n + 1 else 1)] ∧
      metaSelect meta' "seq_ano" = [natStr year] ∧
      (∀ a b : Nat,
        "S-" ++ natStr year ++ "-" ++ pad4 a = "S-" ++ natStr year ++ "-" ++ pad4 b →
          a = b) ∧
      (∀ m : Nat, m < 10000 → (pad4 m).length = 4) := by
  have hne : ("seq_num" : String) ≠ "seq_ano" := by decide
  by_cases hcase : y0 = natStr year
  · refine ⟨metaUpdate meta "seq_num" (natStr (n + 1)), ?_, ?_, ?_,
      fun a b h => sample_id_string_injective _ h, fun m hm => pad4_length hm⟩
    · unfold next_sample_id
      rw [hn, hy]
      simp [strToNat_natStr, hcase]
    · rw [if_pos hcase, metaSelect_update_self, hn]
      rfl
    · rw [metaSelect_update_other meta _ (Ne.symm hne), hy, hcase]
  · refine ⟨metaUpdate (metaUpdate meta "seq_ano" (natStr year)) "seq_num" (natStr 1),
      ?_, ?_, ?_,
      fun a b h => sample_id_string_injective _ h, fun m hm => pad4_length hm⟩
    · unfold next_sample_id
      rw [hn, hy]
      simp [strToNat_natStr, hcase]
    · rw [if_neg hcase, metaSelect_update_self,
        metaSelect_update_other meta _ hne, hn]
      rfl
    · rw [metaSelect_update_other _ _ (Ne.symm hne), metaSelect_update_self, hy]
      rfl

/-- Witness for C1 at the spec's scenario: with the counter at 0 in year
2025 the first call yields "S-2025-0001" and the second "S-2025-0002". -/
theorem next_sample_id_spec_witness :
    (next_sample_id 2025 [("seq_ano", "2025"), ("seq_num", "0")]).map Prod.fst =
      some "S-2025-0001" ∧
    (next_sample_id 2025 [("seq_ano", "2025"), ("seq_num", "1")]).map Prod.fst =
      some "S-2025-0002" := by
  constructor
  · obtain ⟨m, h1, -, -, -, -⟩ :=
      next_sample_id_spec 2025 0 "2025" [("seq_ano", "2025"), ("seq_num", "0")]
        (by decide) (by decide)
    rw [h1]
    rfl
  · obtain ⟨m, h1, -, -, -, -⟩ :=
      next_sample_id_spec 2025 1 "2025" [("seq_ano", "2025"), ("seq_num", "1")]
        (by decide) (by decide)
    rw [h1]
    rfl

/-- C2: every mutating operation that goes through (no reported error)
appends exactly one new audit row, whose `action` matches the operation and
whose `by_user` is the caller-supplied acting user. -/
theorem applyOp_one_audit (db : DB) (user ts : String) (op : Op)
    (h : (applyOp db user ts op).2 = none) :
    ∃ r, (applyOp db user ts op).1.audit = db.audit ++ [r] ∧
      r.action = opAction op ∧ r.by_user = user := by
  cases op with
  | registerSample year client project matrix description rcv d status priority location created_by =>
    by_cases hc : client = ""
    · simp [applyOp, frm_sample, hc] at h
    · rcases hs : next_sample_id year db.meta with - | ⟨sid, meta'⟩
      · simp [applyOp, frm_sample, hc, hs] at h
      · refine ⟨⟨db.audit.length + 1, "sample", sid, "create", user, ts,
          [("client", client), ("priority", priority)]⟩, ?_, rfl, rfl⟩
        simp [applyOp, frm_sample, hc, hs, auditIns]
  | createUser uname role active =>
    by_cases hu : db.users.any (fun u => u.username = uname)
    · simp [applyOp, add_user, hu] at h
    · refine ⟨⟨db.audit.length + 1, "user", uname, "create", user, ts,
        [("role", role)]⟩, ?_, rfl, rfl⟩
      simp [applyOp, add_user, hu, auditIns]
  | updateSample sid client project matrix description rcv d status priority location =>
    exact ⟨_, rfl, rfl, rfl⟩
  | addTest sid2 test_name method unit d => exact ⟨_, rfl, rfl, rfl⟩
  | updateTest tid status assigned d => exact ⟨_, rfl, rfl, rfl⟩
  | addResult tid analyte v u unc notes => exact ⟨_, rfl, rfl, rfl⟩
  | addAttachment sid label url => exact ⟨_, rfl, rfl, rfl⟩
  | addCocEvent sid event notes => exact ⟨_, rfl, rfl, rfl⟩
  | addQcEvent qtype instr desc => exact ⟨_, rfl, rfl, rfl⟩
  | closeQcEvent qid => exact ⟨_, rfl, rfl, rfl⟩

/-- Witness for C2: registering a QC event on the freshly initialized
database appends one audit row with action "create" by user "ana". -/
theorem applyOp_one_audit_witness :
    ∃ r, (applyOp dbInit "ana" "t1" (Op.addQcEvent "calibración" "Epsilon 4" "d")).1.audit =
        dbInit.audit ++ [r] ∧
      r.action = opAction (Op.addQcEvent "calibración" "Epsilon 4" "d") ∧
      r.by_user = "ana" :=
  applyOp_one_audit dbInit "ana" "t1" (Op.addQcEvent "calibración" "Epsilon 4" "d") rfl

/-- C3: adding a test to a sample inserts exactly one test row whose status
is the initial "pendiente" (the spec's "pending") and whose `sample_id` is
the supplied sample identifier, and appends exactly one audit row with
entity "test" and action "create". -/
theorem add_test_spec (db : DB) (sid2 user ts test_name method unit : String)
    (due_at : Option Int) :
    ∃ row rec,
      add_test db sid2 user ts test_name method unit due_at =
        { db with tests := db.tests ++ [row], audit := db.audit ++ [rec] } ∧
      row.status = "pendiente" ∧ row.sample_id = sid2 ∧ row.test_name = test_name ∧
      rec.entity = "test" ∧ rec.action = "create" ∧ rec.by_user = user :=
  ⟨_, _, rfl, rfl, rfl, rfl, rfl, rfl, rfl⟩

/-- C4: the dashboard due-soon listing holds exactly the samples with a
non-null due date at most 7 days out, and never one whose status is
"cerrado" (closed) or "cancelado" (cancelled). -/
theorem dueSoon_mem (db : DB) (today : Int) (s : Sample) :
    s ∈ dueSoonQuery db today ↔
      s ∈ db.samples ∧ (∃ d, s.due_at = some d ∧ d ≤ today + 7) ∧
        s.status ≠ "cerrado" ∧ s.status ≠ "cancelado" := by
  rw [dueSoonQuery, List.mem_filter]
  rcases hd : s.due_at with - | d
  · simp [hd]
  · simp only [hd]
    constructor
    · rintro ⟨hmem, hp⟩
      simp only [Bool.and_eq_true, decide_eq_true_eq, Bool.not_eq_true',
        Bool.or_eq_false_iff, decide_eq_false_iff_not] at hp
      exact ⟨hmem, ⟨d, rfl, hp.1⟩, hp.2.1, hp.2.2⟩
    · rintro ⟨hmem, ⟨d', hd', hle⟩, h1, h2⟩
      obtain rfl : d' = d := by injection hd'.symm
      refine ⟨hmem, ?_⟩
      simp only [Bool.and_eq_true, decide_eq_true_eq, Bool.not_eq_true',
        Bool.or_eq_false_iff, decide_eq_false_iff_not]
      exact ⟨hle, h1, h2⟩

/-- C5: registering a sample with the required client field empty reports
"Cliente es obligatorio." and performs no write at all: the returned state is
the original database, so no sample row, audit row or chain-of-custody row is
added and the sequencer's meta rows are untouched. -/
theorem frm_sample_missing_client (db : DB) (year : Nat)
    (user ts project matrix description : String) (received_at : Int)
    (due_at : Option Int) (status priority location created_by : String) :
    frm_sample db year user ts "" project matrix description received_at due_at
      status priority location created_by = (db, some "Cliente es obligatorio.") := rfl

/-- C6: an added result stores the supplied owning test id, value and
uncertainty verbatim; reading results for that test returns the prior rows
plus exactly this one (exactly one row when there were none before). -/
theorem add_result_spec (db : DB) (tid : Nat) (user ts analyte : String)
    (value : Rat) (unit : String) (unc : Option Rat) (notes : String) :
    ∃ r, results_by_test (add_result db tid user ts analyte value unit unc notes) tid =
        results_by_test db tid ++ [r] ∧
      r.test_id = tid ∧ r.value = value ∧ r.uncertainty = unc ∧ r.analyte = analyte ∧
      (results_by_test db tid = [] →
        results_by_test (add_result db tid user ts analyte value unit unc notes) tid = [r]) := by
  have heq : results_by_test (add_result db tid user ts analyte value unit unc notes) tid =
      results_by_test db tid ++
        [⟨db.results.length + 1, tid, analyte, value, unit, unc, notes, ts⟩] := by
    simp [add_result, auditIns, results_by_test, List.filter_append]
  refine ⟨_, heq, rfl, rfl, rfl, rfl, fun h => ?_⟩
  rw [heq, h, List.nil_append]

/-- C7: the QC close handler sets the status of the event with the given id
to "cerrado" ("closed"); running it a second time raises no error (the
handler is total) and leaves the qc_events table exactly as after the first
close — the status remains "cerrado". -/
theorem qc_close_spec (db : DB) (qid : Nat) (user ts user2 ts2 : String) :
    (∀ e ∈ (qc_close db qid user ts).qc_events, e.id = qid → e.status = "cerrado") ∧
      (qc_close (qc_close db qid user ts) qid user2 ts2).qc_events =
        (qc_close db qid user ts).qc_events := by
  constructor
  · intro e he heq
    simp only [qc_close, auditIns, List.mem_map] at he
    obtain ⟨x, hx, hex⟩ := he
    by_cases hid : x.id = qid
    · rw [← hex, if_pos hid]
    · rw [← hex, if_neg hid] at heq
      exact absurd heq hid
  · simp only [qc_close, auditIns, List.map_map]
    apply List.map_congr_left
    intro x hx
    by_cases hid : x.id = qid
    · simp [Function.comp, hid]
    · simp [Function.comp, hid]

/-- C8: a successful sample registration appends exactly one chain-of-custody
event, carrying the new sample's id, event label "Registro", the acting user
and notes "Muestra creada" — a fresh sample never has an empty COC log. -/
theorem frm_sample_coc (db : DB) (year : Nat)
    (user ts client project matrix description : String) (received_at : Int)
    (due_at : Option Int) (status priority location created_by : String)
    (sid : String) (meta' : List (String × String))
    (hc : client ≠ "") (hs : next_sample_id year db.meta = some (sid, meta')) :
    ∃ c, ((frm_sample db year user ts client project matrix description received_at
          due_at status priority location created_by).1).coc = db.coc ++ [c] ∧
      c.sample_id = sid ∧ c.event = "Registro" ∧ c.by_user = user ∧
      c.notes = "Muestra creada" := by
  refine ⟨⟨db.coc.length + 1, sid, "Registro", user, ts, "Muestra creada"⟩,
    ?_, rfl, rfl, rfl, rfl⟩
  simp [frm_sample, hc, hs, auditIns]

/-- Witness for C8: registering "Acme"/"agua" on the initialized database
appends the "Registro"/"Muestra creada" COC event for "S-2025-0001". -/
theorem frm_sample_coc_witness :
    ∃ c, ((frm_sample dbInit 2025 "admin" "t1" "Acme" "" "agua" "" 0 none
          "registrado" "normal" "" "admin").1).coc = dbInit.coc ++ [c] ∧
      c.sample_id = "S-2025-0001" ∧ c.event = "Registro" ∧ c.by_user = "admin" ∧
      c.notes = "Muestra creada" :=
  frm_sample_coc dbInit 2025 "admin" "t1" "Acme" "" "agua" "" 0 none
    "registrado" "normal" "" "admin" "S-2025-0001"
    [("seq_ano", "2025"), ("seq_num", "1")] (by decide) (by decide)

theorem init_db_meta (db : DB) (year : Nat) (ts : String) :
    (init_db db year ts).meta =
      if metaSelect db.meta "seq_num" = [] then
        metaInsert (if metaSelect db.meta "seq_ano" = [] then
          metaInsert db.meta "seq_ano" (natStr year) else db.meta) "seq_num" "0"
      else
        (if metaSelect db.meta "seq_ano" = [] then
          metaInsert db.meta "seq_ano" (natStr year) else db.meta) := by
  have hns : ("seq_num" : String) ≠ "seq_ano" := by decide
  unfold init_db
  by_cases hA : metaSelect db.meta "seq_ano" = [] <;>
    by_cases hB : metaSelect db.meta "seq_num" = [] <;>
      simp [hA, hB, metaSelect_insert_other _ _ hns] <;>
      split <;> rfl

theorem init_db_users (db : DB) (year : Nat) (ts : String) :
    (init_db db year ts).users =
      if db.users.filter (fun u => u.username = "admin") = [] then
        db.users ++ [⟨db.users.length + 1, "admin", "admin", 1, ts⟩]
      else db.users := by
  have hns : ("seq_num" : String) ≠ "seq_ano" := by decide
  unfold init_db
  by_cases hA : metaSelect db.meta "seq_ano" = [] <;>
    by_cases hB : metaSelect db.meta "seq_num" = [] <;>
      simp [hA, hB, metaSelect_insert_other _ _ hns] <;>
      split <;> rfl

theorem init_db_ano_ne (db : DB) (year : Nat) (ts : String) :
    metaSelect (init_db db year ts).meta "seq_ano" ≠ [] := by
  have hns : ("seq_ano" : String) ≠ "seq_num" := by decide
  rw [init_db_meta]
  by_cases hA : metaSelect db.meta "seq_ano" = [] <;>
    by_cases hB : metaSelect db.meta "seq_num" = [] <;>
      simp [hA, hB, metaSelect_insert_other _ _ hns, metaSelect_insert_self]

theorem init_db_num_ne (db : DB) (year : Nat) (ts : String) :
    metaSelect (init_db db year ts).meta "seq_num" ≠ [] := by
  have hns : ("seq_num" : String) ≠ "seq_ano" := by decide
  rw [init_db_meta]
  by_cases hA : metaSelect db.meta "seq_ano" = [] <;>
    by_cases hB : metaSelect db.meta "seq_num" = [] <;>
      simp [hA, hB, metaSelect_insert_other _ _ hns, metaSelect_insert_self]

theorem init_db_admin_ne (db : DB) (year : Nat) (ts : String) :
    (init_db db year ts).users.filter (fun u => u.username = "admin") ≠ [] := by
  rw [init_db_users]
  by_cases hC : db.users.filter (fun u => u.username = "admin") = [] <;>
    simp [hC, List.filter_append]

theorem init_db_noop (db : DB) (year : Nat) (ts : String)
    (h1 : metaSelect db.meta "seq_ano" ≠ []) (h2 : metaSelect db.meta "seq_num" ≠ [])
    (h3 : db.users.filter (fun u => u.username = "admin") ≠ []) :
    init_db db year ts = db := by
  unfold init_db
  simp [h1, h2, h3]

/-- C9: database initialization bootstraps the store and is idempotent: when
absent it inserts the meta rows `seq_ano` = current year and `seq_num` = "0"
and the active admin user with role admin; rows already present are left
untouched; and re-running initialization changes nothing (no duplicates, no
overwrites). -/
theorem init_db_spec (db : DB) (year : Nat) (ts ts2 : String) :
    (metaSelect db.meta "seq_ano" = [] →
      metaSelect (init_db db year ts).meta "seq_ano" = [natStr year]) ∧
    (metaSelect db.meta "seq_num" = [] →
      metaSelect (init_db db year ts).meta "seq_num" = ["0"]) ∧
    (metaSelect db.meta "seq_ano" ≠ [] →
      metaSelect (init_db db year ts).meta "seq_ano" = metaSelect db.meta "seq_ano") ∧
    (metaSelect db.meta "seq_num" ≠ [] →
      metaSelect (init_db db year ts).meta "seq_num" = metaSelect db.meta "seq_num") ∧
    (db.users.filter (fun u => u.username = "admin") = [] →
      ∃ u ∈ (init_db db year ts).users,
        u.username = "admin" ∧ u.role = "admin" ∧ u.active = 1) ∧
    (db.users.filter (fun u => u.username = "admin") ≠ [] →
      (init_db db year ts).users = db.users) ∧
    init_db (init_db db year ts) year ts2 = init_db db year ts := by
  have hns : ("seq_num" : String) ≠ "seq_ano" := by decide
  refine ⟨?_, ?_, ?_, ?_, ?_, ?_, ?_⟩
  · intro hA
    rw [init_db_meta]
    by_cases hB : metaSelect db.meta "seq_num" = [] <;>
      simp [hA, hB, metaSelect_insert_other _ _ (Ne.symm hns), metaSelect_insert_self]
  · intro hB
    rw [init_db_meta]
    by_cases hA : metaSelect db.meta "seq_ano" = [] <;>
      simp [hA, hB, metaSelect_insert_other _ _ hns, metaSelect_insert_self]
  · intro hA
    rw [init_db_meta]
    by_cases hB : metaSelect db.meta "seq_num" = [] <;>
      simp [hA, hB, metaSelect_insert_other _ _ (Ne.symm hns)]
  · intro hB
    rw [init_db_meta]
    by_cases hA : metaSelect db.meta "seq_ano" = [] <;>
      simp [hA, hB, metaSelect_insert_other _ _ hns]
  · intro hC
    rw [init_db_users, if_pos hC]
    exact ⟨⟨db.users.length + 1, "admin", "admin", 1, ts⟩, by simp, rfl, rfl, rfl⟩
  · intro hC
    rw [init_db_users, if_neg hC]
  · exact init_db_noop _ year ts2 (init_db_ano_ne db year ts)
      (init_db_num_ne db year ts) (init_db_admin_ne db year ts)

theorem natStr_ne_dash (m : Nat) : natStr m ≠ "-" := by
  intro h
  have hd : decChars m = ['-'] := congrArg String.data h
  have hall := decChars_all_digits m
  rw [hd] at hall
  exact absurd hall (by decide)

/-- C10: the audit rows written at creation time carry, as `entity_id`, the
owning sample's identifier for a new test, the owning test's id for a new
result, and the literal "-" for a new QC event — never the created row's own
numeric id (no numeric id even renders as "-"). -/
theorem audit_entity_id_spec (db : DB) (user ts sid2 test_name method unit : String)
    (due_at : Option Int) (tid : Nat) (analyte : String) (value : Rat)
    (runit : String) (unc : Option Rat) (notes qtype instr desc : String) :
    (∃ rec, (add_test db sid2 user ts test_name method unit due_at).audit =
        db.audit ++ [rec] ∧ rec.entity = "test" ∧ rec.entity_id = sid2) ∧
    (∃ rec, (add_result db tid user ts analyte value runit unc notes).audit =
        db.audit ++ [rec] ∧ rec.entity = "result" ∧ rec.entity_id = natStr tid) ∧
    (∃ rec, (qc_form db user ts qtype instr desc).audit =
        db.audit ++ [rec] ∧ rec.entity = "qc" ∧ rec.entity_id = "-" ∧
        ∀ m : Nat, rec.entity_id ≠ natStr m) :=
  ⟨⟨_, rfl, rfl, rfl⟩, ⟨_, rfl, rfl, rfl⟩,
    ⟨_, rfl, rfl, rfl, fun m => Ne.symm (natStr_ne_dash m)⟩⟩
